import Mathlib

/-!
Verification of the CSV billing pipeline in
`Introduction_to_Unit_Testing_Dennis_Mutai.py`.

The pipeline has three functions built on pandas DataFrames:

  def data_extraction(file_path):
      data = pd.read_csv(file_path)
      return data

  def data_transformation(data):
      data = data.drop_duplicates()
      data['billing_amount'] = data['billing_amount'].str.replace('$', '').astype(float)
      data['total_charges'] = data['billing_amount'] + data['tax_amount']
      return data

  def data_loading(data, output_file):
      data.to_csv(output_file, index=False)

We embed a DataFrame as a `Table`: a list of column names plus a list of
rows, each row a list of cell values.  Cell values are strings, integers,
rationals (standing in for Python floats; all values appearing in this
development are small decimals, where float arithmetic is exact), or NaN.
Errors raised by pandas are modelled as an explicit error type returned
through `Except`.
-/

/-- A cell value of a DataFrame: a string, an int64 value, a float64 value
(modelled as a rational, exact for the decimal literals that occur here),
or NaN (the missing-value marker pandas inserts, e.g. when `.str` methods
meet a non-string element of an object column). -/
inductive Val where
  | VStr : String → Val
  | VInt : ℤ → Val
  | VFloat : ℚ → Val
  | VNaN : Val
deriving DecidableEq

/-- The kinds of Python exceptions this pipeline can raise:
`KeyError` (column lookup on a missing column name), `ValueError`
(`astype(float)` on a non-numeric string, carrying the offending string),
`AttributeError` (`.str` accessor on a numeric-dtype Series),
`TypeError` (adding incompatible element types), and pandas'
`EmptyDataError` (`read_csv` on a file with no columns to parse). -/
inductive PdError where
  | keyError : String → PdError
  | valueError : String → PdError
  | attributeError : PdError
  | typeError : PdError
  | emptyDataError : PdError
deriving DecidableEq

/-- A DataFrame: named columns and rows of cell values.  A well-formed
table (`Table.WF`) has distinct column names and every row as long as the
column list. -/
structure Table where
  cols : List String
  rows : List (List Val)
deriving DecidableEq

/-- Well-formedness of a table: column names are distinct and each row has
one cell per column. -/
def Table.WF (t : Table) : Prop :=
  t.cols.Nodup ∧ ∀ r ∈ t.rows, r.length = t.cols.length

instance (t : Table) : Decidable t.WF := by
  unfold Table.WF; infer_instance

/-- Index of a column name in a column list (first match), the embedding of
pandas column lookup. -/
def colIdx? (c : String) : List String → Option ℕ
  | [] => none
  | c0 :: cs => if c0 = c then some 0 else (colIdx? c cs).map (· + 1)

/-- Read a column as a list of cell values (`data[c]` on the right-hand
side of an expression); `none` when the column is absent. -/
def getCol? (t : Table) (c : String) : Option (List Val) :=
  (colIdx? c t.cols).map fun i => t.rows.map fun r => r.getD i Val.VNaN

/-- Column read that raises: `data[c]` raises `KeyError(c)` when column `c`
is absent, including on an empty DataFrame with no columns. -/
def getColE (t : Table) (c : String) : Except PdError (List Val) :=
  match getCol? t c with
  | some vs => .ok vs
  | none => .error (.keyError c)

/-- Column assignment `data[c] = vs`: overwrite the column in place when the
name exists, otherwise append it as the last column. -/
def setCol (t : Table) (c : String) (vs : List Val) : Table :=
  match colIdx? c t.cols with
  | some i => ⟨t.cols, t.rows.zipWith (fun r v => r.set i v) vs⟩
  | none => ⟨t.cols ++ [c], t.rows.zipWith (fun r v => r ++ [v]) vs⟩

/-- Keep-first deduplication of rows: a row is dropped when an equal row
(all cells equal; NaN compares equal to NaN, as in pandas `duplicated`)
occurred earlier.  `seen` accumulates the rows already kept. -/
def dedupAux (seen : List (List Val)) : List (List Val) → List (List Val)
  | [] => []
  | r :: rs => if r ∈ seen then dedupAux seen rs else r :: dedupAux (r :: seen) rs

/-- `data.drop_duplicates()`: remove rows that duplicate an earlier row,
keeping first occurrences in order.  Returns a new DataFrame (pandas copies
the surviving rows; the argument is not modified). -/
def dropDuplicates (t : Table) : Table :=
  ⟨t.cols, dedupAux [] t.rows⟩

/-- Python `s.replace('$', '')` for strings: delete every occurrence of the
character `'$'` (pandas ≥ 2.0 `str.replace` default `regex=False`, plain
substring replacement). -/
def removeDollar (s : String) : String :=
  String.mk (s.data.filter fun ch => ch ≠ '$')

/-- Is a value numeric (non-string) for dtype purposes?  NaN lives in
numeric (float) columns. -/
def isNumVal : Val → Bool
  | .VStr _ => false
  | _ => true

/-- Does a column have a numeric dtype?  A column built from numeric values
only gets an int64/float64 dtype; one containing any string is `object`
dtype.  An empty column defaults to `object`.  The `.str` accessor raises
`AttributeError` exactly on numeric dtypes. -/
def numericDtype (col : List Val) : Bool :=
  !col.isEmpty && col.all isNumVal

/-- Elementwise behaviour of `.str.replace('$', '')` on an object column:
strings get the replacement, non-string elements become NaN. -/
def strReplaceDollarVal : Val → Val
  | .VStr s => .VStr (removeDollar s)
  | _ => .VNaN

/-- `col.str.replace('$', '')`: `AttributeError` when the Series has a
numeric dtype, otherwise elementwise replacement. -/
def strReplaceDollar (col : List Val) : Except PdError (List Val) :=
  if numericDtype col then .error .attributeError
  else .ok (col.map strReplaceDollarVal)

/-- Value of a decimal digit character. -/
def digitVal (ch : Char) : ℕ := ch.toNat - 48

/-- Numeric value of a digit string read left to right. -/
def natOfDigits (l : List Char) : ℕ :=
  l.foldl (fun a ch => 10 * a + digitVal ch) 0

/-- Parse an unsigned decimal literal: digits, optionally with a single
decimal point, at least one digit overall (Python `float` accepts "100",
"1.5", "5.", ".5" and rejects "", ".", "1$00", "abc"). -/
def parseUnsigned? (l : List Char) : Option ℚ :=
  let ip := l.takeWhile Char.isDigit
  match l.drop ip.length with
  | [] => if ip.isEmpty then none else some (natOfDigits ip)
  | '.' :: fp =>
      if fp.all Char.isDigit && !(ip.isEmpty && fp.isEmpty) then
        some ((natOfDigits ip : ℚ) + (natOfDigits fp : ℚ) / (10 ^ fp.length))
      else none
  | _ => none

/-- Python `float(s)` on a string, as used by `astype(float)`: strip
surrounding spaces, optional sign, then a decimal literal; `none` when the
string is not numeric.  (Exponent and inf/nan spellings are not used by
this repository and are not modelled.) -/
def parseFloat? (s : String) : Option ℚ :=
  let l := s.data.dropWhile (· = ' ')
  let l := (l.reverse.dropWhile (· = ' ')).reverse
  match l with
  | '-' :: r => (parseUnsigned? r).map (fun q => -q)
  | '+' :: r => parseUnsigned? r
  | _ => parseUnsigned? l

/-- `astype(float)` on one element: parse strings (raising
`ValueError` on a non-numeric string, carrying it), keep NaN, and widen
numbers to float. -/
def astypeFloatVal : Val → Except PdError Val
  | .VStr s =>
      match parseFloat? s with
      | some q => .ok (.VFloat q)
      | none => .error (.valueError s)
  | .VNaN => .ok .VNaN
  | .VFloat q => .ok (.VFloat q)
  | .VInt n => .ok (.VFloat (n : ℚ))

/-- `astype(float)` on a column: convert every element, failing on the
first non-convertible one. -/
def astypeFloat : List Val → Except PdError (List Val)
  | [] => .ok []
  | v :: vs =>
      match astypeFloatVal v with
      | .error e => .error e
      | .ok w =>
          match astypeFloat vs with
          | .error e => .error e
          | .ok ws => .ok (w :: ws)

/-- The right-hand side of line 39 of the source applied to the
`billing_amount` column: `col.str.replace('$', '').astype(float)`. -/
def coerceBilling (col : List Val) : Except PdError (List Val) :=
  match strReplaceDollar col with
  | .error e => .error e
  | .ok scol => astypeFloat scol

/-- Addition of two cells, as in pandas Series `+`: numbers add (int+int
stays int64, anything with a float widens to float), NaN propagates,
strings concatenate with strings, and a string mixed with a number raises
`TypeError`. -/
def addVal : Val → Val → Except PdError Val
  | .VStr a, .VStr b => .ok (.VStr (a ++ b))
  | .VStr _, _ => .error .typeError
  | _, .VStr _ => .error .typeError
  | .VNaN, _ => .ok .VNaN
  | _, .VNaN => .ok .VNaN
  | .VInt a, .VInt b => .ok (.VInt (a + b))
  | .VInt a, .VFloat b => .ok (.VFloat ((a : ℚ) + b))
  | .VFloat a, .VInt b => .ok (.VFloat (a + (b : ℚ)))
  | .VFloat a, .VFloat b => .ok (.VFloat (a + b))

/-- Elementwise addition of two Series of the same frame (identical
index, so positional). -/
def addSeries : List Val → List Val → Except PdError (List Val)
  | [], _ => .ok []
  | _, [] => .ok []
  | a :: as_, b :: bs =>
      match addVal a b with
      | .error e => .error e
      | .ok c =>
          match addSeries as_ bs with
          | .error e => .error e
          | .ok cs => .ok (c :: cs)

/-- The Transformer (`data_transformation`), step for step:
deduplicate; read `billing_amount` (KeyError when absent), strip `'$'`
and coerce to float, write the column back; read `billing_amount` again
and `tax_amount` (KeyError when absent), add them elementwise, and store
the sum as `total_charges`. -/
def data_transformation (data : Table) : Except PdError Table :=
  let t1 := dropDuplicates data
  match getColE t1 "billing_amount" with
  | .error e => .error e
  | .ok col =>
    match coerceBilling col with
    | .error e => .error e
    | .ok billF =>
      let t2 := setCol t1 "billing_amount" billF
      match getColE t2 "billing_amount" with
      | .error e => .error e
      | .ok b =>
        match getColE t2 "tax_amount" with
        | .error e => .error e
        | .ok tax =>
          match addSeries b tax with
          | .error e => .error e
          | .ok tot => .ok (setCol t2 "total_charges" tot)

/-- Infer the value of one CSV field the way `read_csv` does: an optional
sign with digits is an integer, otherwise a numeric string is a float,
otherwise the field stays a string. -/
def parseField (s : String) : Val :=
  let isInt :=
    match s.data with
    | '-' :: r => !r.isEmpty && r.all Char.isDigit
    | '+' :: r => !r.isEmpty && r.all Char.isDigit
    | l => !l.isEmpty && l.all Char.isDigit
  if isInt then
    match s.data with
    | '-' :: r => .VInt (-(natOfDigits r : ℤ))
    | '+' :: r => .VInt (natOfDigits r : ℤ)
    | l => .VInt (natOfDigits l : ℤ)
  else
    match parseFloat? s with
    | some q => .VFloat q
    | none => .VStr s

/-- Split a character list at every occurrence of a separator character
(the splitting used for lines and for comma-separated fields). -/
def splitOnChar (ch : Char) : List Char → List (List Char)
  | [] => [[]]
  | a :: as =>
      if a = ch then [] :: splitOnChar ch as
      else
        match splitOnChar ch as with
        | [] => [[a]]
        | s :: ss => (a :: s) :: ss

/-- The Extractor (`data_extraction`): `pd.read_csv` applied to the
contents of the file at `file_path` (the file is taken to exist and be
readable; the path resolution itself is outside the data model).  pandas
skips blank lines; when nothing remains it raises
`EmptyDataError("No columns to parse from file")` — in particular on a
zero-byte file.  Otherwise the first line is the header and each further
line is a row of inferred values.  (CSV quoting is not used by this
repository and is not modelled.) -/
def data_extraction (content : String) : Except PdError Table :=
  let ls := ((splitOnChar '\n' content.data).map String.mk).filter fun l => l ≠ ""
  match ls with
  | [] => .error .emptyDataError
  | header :: rest =>
      .ok ⟨(splitOnChar ',' header.data).map String.mk,
        rest.map fun l => ((splitOnChar ',' l.data).map String.mk).map parseField⟩

/-- Render one cell for CSV output; NaN is written as an empty field.
(Float text formatting is abstracted: a rational is printed as itself,
which is exact for the values occurring here.) -/
def showVal : Val → String
  | .VStr s => s
  | .VInt n => toString n
  | .VFloat q => toString q
  | .VNaN => ""

/-- The Loader (`data_loading`): `data.to_csv(output_file, index=False)`
on a writable destination, modelled as the text written: the header line
(column names comma-joined) then one line per row, each line
newline-terminated. -/
def data_loading (data : Table) : String :=
  String.intercalate "," data.cols ++ "\n"
    ++ String.join (data.rows.map fun r =>
        String.intercalate "," (r.map showVal) ++ "\n")

/-- `data_transformation` with the aliasing of the Python call made
explicit: a heap of tables stands for the DataFrame objects alive in the
caller, `r` is the index of the argument.  `drop_duplicates` returns a
fresh copy (allocated at the end of the heap) and both column assignments
of the source mutate only that copy; the function returns the final heap
and the index of the result table. -/
def dtHeap (h : List Table) (r : ℕ) : Except PdError (List Table × ℕ) :=
  let t := h.getD r ⟨[], []⟩
  let t1 := dropDuplicates t
  let r1 := h.length
  let h1 := h ++ [t1]
  match getColE t1 "billing_amount" with
  | .error e => .error e
  | .ok col =>
    match coerceBilling col with
    | .error e => .error e
    | .ok billF =>
      let t2 := setCol t1 "billing_amount" billF
      let h2 := h1.set r1 t2
      match getColE t2 "billing_amount" with
      | .error e => .error e
      | .ok b =>
        match getColE t2 "tax_amount" with
        | .error e => .error e
        | .ok tax =>
          match addSeries b tax with
          | .error e => .error e
          | .ok tot => .ok (h2.set r1 (setCol t2 "total_charges" tot), r1)

/-! ### Supporting lemmas -/

theorem mem_of_mem_dedupAux {r : List Val} :
    ∀ {seen l : List (List Val)}, r ∈ dedupAux seen l → r ∈ l := by
  intro seen l
  induction l generalizing seen with
  | nil => simp [dedupAux]
  | cons a rs ih =>
    intro h
    by_cases hs : a ∈ seen
    · simp only [dedupAux, if_pos hs] at h
      exact List.mem_cons_of_mem a (ih h)
    · simp only [dedupAux, if_neg hs, List.mem_cons] at h
      rcases h with h | h
      · exact h ▸ List.mem_cons_self a rs
      · exact List.mem_cons_of_mem a (ih h)

theorem not_mem_seen_of_mem_dedupAux {r : List Val} :
    ∀ {seen l : List (List Val)}, r ∈ dedupAux seen l → r ∉ seen := by
  intro seen l
  induction l generalizing seen with
  | nil => simp [dedupAux]
  | cons a rs ih =>
    intro h
    by_cases hs : a ∈ seen
    · simp only [dedupAux, if_pos hs] at h
      exact ih h
    · simp only [dedupAux, if_neg hs, List.mem_cons] at h
      rcases h with h | h
      · exact h ▸ hs
      · intro hr
        exact ih h (List.mem_cons_of_mem a hr)

theorem sublist_dedupAux : ∀ (seen l : List (List Val)), (dedupAux seen l).Sublist l := by
  intro seen l
  induction l generalizing seen with
  | nil => simp [dedupAux]
  | cons a rs ih =>
    by_cases hs : a ∈ seen
    · simp only [dedupAux, if_pos hs]
      exact (ih seen).cons a
    · simp only [dedupAux, if_neg hs]
      exact (ih (a :: seen)).cons₂ a

theorem nodup_dedupAux : ∀ (seen l : List (List Val)), (dedupAux seen l).Nodup := by
  intro seen l
  induction l generalizing seen with
  | nil => simp [dedupAux]
  | cons a rs ih =>
    by_cases hs : a ∈ seen
    · simpa only [dedupAux, if_pos hs] using ih seen
    · simp only [dedupAux, if_neg hs, List.nodup_cons]
      refine ⟨fun ha => ?_, ih (a :: seen)⟩
      exact not_mem_seen_of_mem_dedupAux ha (List.mem_cons_self a seen)

theorem colIdx?_eq_none_iff {c : String} :
    ∀ {l : List String}, colIdx? c l = none ↔ c ∉ l := by
  intro l
  induction l with
  | nil => simp [colIdx?]
  | cons a cs ih =>
    by_cases ha : a = c
    · simp [colIdx?, ha]
    · simp [colIdx?, ha, ih, Ne.symm ha]

theorem colIdx?_lt_length {c : String} :
    ∀ {l : List String} {i : ℕ}, colIdx? c l = some i → i < l.length := by
  intro l
  induction l with
  | nil => simp [colIdx?]
  | cons a cs ih =>
    intro i h
    by_cases ha : a = c
    · simp only [colIdx?, if_pos ha] at h
      cases h
      simp
    · simp only [colIdx?, if_neg ha, Option.map_eq_some'] at h
      rcases h with ⟨j, hj, rfl⟩
      simpa using ih hj

theorem colIdx?_getD {c : String} :
    ∀ {l : List String} {i : ℕ}, colIdx? c l = some i → l.getD i "" = c := by
  intro l
  induction l with
  | nil => simp [colIdx?]
  | cons a cs ih =>
    intro i h
    by_cases ha : a = c
    · simp only [colIdx?, if_pos ha] at h
      cases h
      simpa using ha
    · simp only [colIdx?, if_neg ha, Option.map_eq_some'] at h
      rcases h with ⟨j, hj, rfl⟩
      simpa using ih hj

theorem colIdx?_append_singleton (c b : String) :
    ∀ l : List String,
      colIdx? b (l ++ [c]) =
        match colIdx? b l with
        | some j => some j
        | none => if c = b then some l.length else none := by
  intro l
  induction l with
  | nil => simp [colIdx?]
  | cons a cs ih =>
    by_cases ha : a = b
    · simp [colIdx?, ha]
    · simp only [List.cons_append, colIdx?, if_neg ha, List.append_eq]
      rw [ih]
      cases hcs : colIdx? b cs with
      | some j => simp
      | none =>
        by_cases hc : c = b <;> simp [hc, List.length_cons]

theorem getD_set_self {α : Type} (v d : α) :
    ∀ (r : List α) (i : ℕ), i < r.length → (r.set i v).getD i d = v := by
  intro r
  induction r with
  | nil => simp
  | cons a rs ih =>
    intro i hi
    cases i with
    | zero => simp
    | succ j => simpa using ih j (by simpa using hi)

theorem getD_set_ne {α : Type} (v d : α) :
    ∀ (r : List α) (i j : ℕ), i ≠ j → (r.set i v).getD j d = r.getD j d := by
  intro r
  induction r with
  | nil => simp
  | cons a rs ih =>
    intro i j hij
    cases i with
    | zero =>
      cases j with
      | zero => exact absurd rfl hij
      | succ k => simp
    | succ i0 =>
      cases j with
      | zero => simp
      | succ k => simpa using ih i0 k (by omega)

theorem getD_append_self {α : Type} (v d : α) :
    ∀ r : List α, ((r ++ [v]).getD r.length d) = v := by
  intro r
  induction r with
  | nil => simp
  | cons a rs ih =>
    simp only [List.cons_append, List.length_cons, List.getD_cons_succ]
    exact ih

theorem getD_append_lt {α : Type} (v d : α) :
    ∀ (r : List α) (j : ℕ), j < r.length → (r ++ [v]).getD j d = r.getD j d := by
  intro r
  induction r with
  | nil => simp
  | cons a rs ih =>
    intro j hj
    cases j with
    | zero => simp
    | succ k => simpa using ih k (by simpa using hj)

theorem map_getD_zipWith_set (i : ℕ) (d : Val) :
    ∀ (rows : List (List Val)) (vs : List Val),
      vs.length = rows.length → (∀ r ∈ rows, i < r.length) →
      (List.zipWith (fun r v => r.set i v) rows vs).map (fun r => r.getD i d) = vs := by
  intro rows
  induction rows with
  | nil =>
    intro vs h _
    cases vs with
    | nil => simp
    | cons v vs0 => simp at h
  | cons r rs ih =>
    intro vs hlen hrow
    cases vs with
    | nil => simp at hlen
    | cons v vs0 =>
      simp only [List.zipWith_cons_cons, List.map_cons]
      rw [getD_set_self v d r i (hrow r (List.mem_cons_self r rs)),
        ih vs0 (by simpa using hlen) (fun r0 h0 => hrow r0 (List.mem_cons_of_mem r h0))]

theorem map_getD_zipWith_set_ne (i j : ℕ) (d : Val) (hne : i ≠ j) :
    ∀ (rows : List (List Val)) (vs : List Val),
      vs.length = rows.length →
      (List.zipWith (fun r v => r.set i v) rows vs).map (fun r => r.getD j d)
        = rows.map (fun r => r.getD j d) := by
  intro rows
  induction rows with
  | nil => simp
  | cons r rs ih =>
    intro vs hlen
    cases vs with
    | nil => simp at hlen
    | cons v vs0 =>
      simp only [List.zipWith_cons_cons, List.map_cons]
      rw [getD_set_ne v d r i j hne, ih vs0 (by simpa using hlen)]

theorem map_getD_zipWith_append (n : ℕ) (d : Val) :
    ∀ (rows : List (List Val)) (vs : List Val),
      vs.length = rows.length → (∀ r ∈ rows, r.length = n) →
      (List.zipWith (fun r v => r ++ [v]) rows vs).map (fun r => r.getD n d) = vs := by
  intro rows
  induction rows with
  | nil =>
    intro vs h _
    cases vs with
    | nil => simp
    | cons v vs0 => simp at h
  | cons r rs ih =>
    intro vs hlen hrow
    cases vs with
    | nil => simp at hlen
    | cons v vs0 =>
      simp only [List.zipWith_cons_cons, List.map_cons]
      have hr : r.length = n := hrow r (List.mem_cons_self r rs)
      have hhead : (r ++ [v]).getD n d = v := by
        rw [← hr]; exact getD_append_self v d r
      rw [hhead,
        ih vs0 (by simpa using hlen) (fun r0 h0 => hrow r0 (List.mem_cons_of_mem r h0))]

theorem map_getD_zipWith_append_lt (n j : ℕ) (d : Val) (hj : j < n) :
    ∀ (rows : List (List Val)) (vs : List Val),
      vs.length = rows.length → (∀ r ∈ rows, r.length = n) →
      (List.zipWith (fun r v => r ++ [v]) rows vs).map (fun r => r.getD j d)
        = rows.map (fun r => r.getD j d) := by
  intro rows
  induction rows with
  | nil => simp
  | cons r rs ih =>
    intro vs hlen hrow
    cases vs with
    | nil => simp at hlen
    | cons v vs0 =>
      simp only [List.zipWith_cons_cons, List.map_cons]
      have hr : r.length = n := hrow r (List.mem_cons_self r rs)
      rw [getD_append_lt v d r j (by omega),
        ih vs0 (by simpa using hlen) (fun r0 h0 => hrow r0 (List.mem_cons_of_mem r h0))]

theorem getCol?_eq_none_iff {t : Table} {c : String} :
    getCol? t c = none ↔ c ∉ t.cols := by
  unfold getCol?
  cases h : colIdx? c t.cols with
  | some i =>
    have hc : c ∈ t.cols := by
      by_contra hnc
      rw [colIdx?_eq_none_iff.mpr hnc] at h
      exact Option.noConfusion h
    simp [hc]
  | none => simp [colIdx?_eq_none_iff.mp h]

theorem getCol?_isSome_of_mem {t : Table} {c : String} (h : c ∈ t.cols) :
    ∃ vs, getCol? t c = some vs := by
  cases hg : getCol? t c with
  | some vs => exact ⟨vs, rfl⟩
  | none => exact absurd (getCol?_eq_none_iff.mp hg) (by simpa using h)

theorem getCol?_length {t : Table} {c : String} {vs : List Val}
    (h : getCol? t c = some vs) : vs.length = t.rows.length := by
  unfold getCol? at h
  cases hi : colIdx? c t.cols with
  | some i =>
    rw [hi] at h
    simp only [Option.map_some', Option.some.injEq] at h
    rw [← h]
    simp
  | none => rw [hi] at h; simp at h

theorem getColE_eq_ok_iff {t : Table} {c : String} {vs : List Val} :
    getColE t c = .ok vs ↔ getCol? t c = some vs := by
  unfold getColE
  cases h : getCol? t c <;> simp

theorem getColE_eq_error_of_not_mem {t : Table} {c : String} (h : c ∉ t.cols) :
    getColE t c = .error (.keyError c) := by
  unfold getColE
  rw [getCol?_eq_none_iff.mpr h]

theorem cols_dropDuplicates (t : Table) : (dropDuplicates t).cols = t.cols := rfl

theorem WF_dropDuplicates {t : Table} (hwf : t.WF) : (dropDuplicates t).WF := by
  refine ⟨hwf.1, fun r hr => ?_⟩
  exact hwf.2 r (mem_of_mem_dedupAux hr)

theorem rows_setCol_length {t : Table} {c : String} {vs : List Val}
    (hv : vs.length = t.rows.length) : (setCol t c vs).rows.length = t.rows.length := by
  unfold setCol
  cases colIdx? c t.cols <;> simp [hv]

theorem cols_setCol_of_mem {t : Table} {c : String} {vs : List Val} (h : c ∈ t.cols) :
    (setCol t c vs).cols = t.cols := by
  unfold setCol
  cases hi : colIdx? c t.cols with
  | some i => rfl
  | none => exact absurd (colIdx?_eq_none_iff.mp hi) (by simpa using h)

theorem mem_zipWith_pd {α β γ : Type} (f : α → β → γ) :
    ∀ (l1 : List α) (l2 : List β) (z : γ), z ∈ List.zipWith f l1 l2 →
      ∃ a, a ∈ l1 ∧ ∃ b, b ∈ l2 ∧ z = f a b := by
  intro l1
  induction l1 with
  | nil => simp
  | cons a as ih =>
    intro l2 z h
    cases l2 with
    | nil => simp at h
    | cons b bs =>
      simp only [List.zipWith_cons_cons, List.mem_cons] at h
      rcases h with h | h
      · exact ⟨a, List.mem_cons_self a as, b, List.mem_cons_self b bs, h⟩
      · rcases ih bs z h with ⟨x, hx, y, hy, hz⟩
        exact ⟨x, List.mem_cons_of_mem a hx, y, List.mem_cons_of_mem b hy, hz⟩

theorem WF_setCol {t : Table} {c : String} {vs : List Val}
    (hwf : t.WF) : (setCol t c vs).WF := by
  unfold setCol
  cases hi : colIdx? c t.cols with
  | some i =>
    exact ⟨hwf.1, fun r hr => by
      rcases mem_zipWith_pd _ _ _ _ hr with ⟨a, ha, v, _, rfl⟩
      simpa using hwf.2 a ha⟩
  | none =>
    have hc : c ∉ t.cols := colIdx?_eq_none_iff.mp hi
    refine ⟨?_, fun r hr => ?_⟩
    · simp [List.nodup_append, hwf.1, hc]
    · rcases mem_zipWith_pd _ _ _ _ hr with ⟨a, ha, v, _, rfl⟩
      simp [hwf.2 a ha]

theorem getCol?_setCol_self {t : Table} {c : String} {vs : List Val}
    (hwf : t.WF) (hv : vs.length = t.rows.length) :
    getCol? (setCol t c vs) c = some vs := by
  unfold setCol
  cases hi : colIdx? c t.cols with
  | some i =>
    simp only [getCol?, hi, Option.map_some', Option.some.injEq]
    exact map_getD_zipWith_set i Val.VNaN t.rows vs hv
      (fun r hr => by rw [hwf.2 r hr]; exact colIdx?_lt_length hi)
  | none =>
    have happ := colIdx?_append_singleton c c t.cols
    rw [hi] at happ
    rw [if_pos rfl] at happ
    simp only [getCol?, happ, Option.map_some', Option.some.injEq]
    exact map_getD_zipWith_append t.cols.length Val.VNaN t.rows vs hv hwf.2

theorem getCol?_setCol_ne {t : Table} {c b : String} {vs : List Val}
    (hwf : t.WF) (hv : vs.length = t.rows.length) (hne : b ≠ c) :
    getCol? (setCol t c vs) b = getCol? t b := by
  unfold setCol
  cases hi : colIdx? c t.cols with
  | some i =>
    cases hb : colIdx? b t.cols with
    | some j =>
      have hij : i ≠ j := by
        intro hcontra
        apply hne
        rw [← colIdx?_getD hb, ← hcontra, colIdx?_getD hi]
      simp only [getCol?, hb, Option.map_some', Option.some.injEq]
      exact map_getD_zipWith_set_ne i j Val.VNaN hij t.rows vs hv
    | none => simp only [getCol?, hb, Option.map_none']
  | none =>
    have happ := colIdx?_append_singleton c b t.cols
    cases hb : colIdx? b t.cols with
    | some j =>
      rw [hb] at happ
      simp only [getCol?, happ, hb, Option.map_some', Option.some.injEq]
      exact map_getD_zipWith_append_lt t.cols.length j Val.VNaN
        (colIdx?_lt_length hb) t.rows vs hv hwf.2
    | none =>
      rw [hb] at happ
      rw [if_neg (fun hcb => hne hcb.symm)] at happ
      simp only [getCol?, happ, hb, Option.map_none']

theorem astypeFloat_length :
    ∀ (l l2 : List Val), astypeFloat l = .ok l2 → l2.length = l.length := by
  intro l
  induction l with
  | nil =>
    intro l2 h
    simp only [astypeFloat] at h
    cases h
    rfl
  | cons v vs ih =>
    intro l2 h
    cases hv : astypeFloatVal v with
    | error e => simp [astypeFloat, hv] at h
    | ok w =>
      cases hrec : astypeFloat vs with
      | error e => simp [astypeFloat, hv, hrec] at h
      | ok ws =>
        simp only [astypeFloat, hv, hrec, Except.ok.injEq] at h
        subst h
        simp [ih ws hrec]

theorem strReplaceDollar_length {col l2 : List Val}
    (h : strReplaceDollar col = .ok l2) : l2.length = col.length := by
  unfold strReplaceDollar at h
  by_cases hd : numericDtype col
  · rw [if_pos hd] at h
    exact absurd h (by simp)
  · rw [if_neg hd] at h
    simp only [Except.ok.injEq] at h
    subst h
    simp

theorem coerceBilling_length {col l2 : List Val}
    (h : coerceBilling col = .ok l2) : l2.length = col.length := by
  unfold coerceBilling at h
  cases hs : strReplaceDollar col with
  | error e => rw [hs] at h; exact absurd h (by simp)
  | ok scol =>
    rw [hs] at h
    rw [astypeFloat_length scol l2 h, strReplaceDollar_length hs]

theorem addSeries_length :
    ∀ (xs ys zs : List Val), addSeries xs ys = .ok zs →
      zs.length = min xs.length ys.length := by
  intro xs
  induction xs with
  | nil =>
    intro ys zs h
    simp only [addSeries] at h
    cases h
    simp
  | cons x xs0 ih =>
    intro ys zs h
    cases ys with
    | nil =>
      simp only [addSeries] at h
      cases h
      simp
    | cons y ys0 =>
      cases hxy : addVal x y with
      | error e => simp [addSeries, hxy] at h
      | ok z =>
        cases hrec : addSeries xs0 ys0 with
        | error e => simp [addSeries, hxy, hrec] at h
        | ok zs0 =>
          simp only [addSeries, hxy, hrec, Except.ok.injEq] at h
          subst h
          have := ih ys0 zs0 hrec
          simp only [List.length_cons]
          omega

theorem addSeries_getD (d : Val) :
    ∀ (xs ys zs : List Val), addSeries xs ys = .ok zs →
      ∀ i, i < zs.length → addVal (xs.getD i d) (ys.getD i d) = .ok (zs.getD i d) := by
  intro xs
  induction xs with
  | nil =>
    intro ys zs h
    simp only [addSeries] at h
    cases h
    simp
  | cons x xs0 ih =>
    intro ys zs h
    cases ys with
    | nil =>
      simp only [addSeries] at h
      cases h
      simp
    | cons y ys0 =>
      cases hxy : addVal x y with
      | error e => simp [addSeries, hxy] at h
      | ok z =>
        cases hrec : addSeries xs0 ys0 with
        | error e => simp [addSeries, hxy, hrec] at h
        | ok zs0 =>
          simp only [addSeries, hxy, hrec, Except.ok.injEq] at h
          subst h
          intro i hi
          cases i with
          | zero => simpa using hxy
          | succ k =>
            simp only [List.getD_cons_succ]
            exact ih ys0 zs0 hrec k (by simpa using hi)

deriving instance DecidableEq for Except

theorem getCol?_mem_of_some {t : Table} {c : String} {vs : List Val}
    (h : getCol? t c = some vs) : c ∈ t.cols := by
  by_contra hnc
  rw [getCol?_eq_none_iff.mpr hnc] at h
  exact Option.noConfusion h

/-- Decomposition of a successful `data_transformation` run into its
intermediate steps. -/
theorem data_transformation_run_shape {t out : Table}
    (h : data_transformation t = .ok out) :
    ∃ col billF b tax tot,
      getColE (dropDuplicates t) "billing_amount" = .ok col ∧
      coerceBilling col = .ok billF ∧
      getColE (setCol (dropDuplicates t) "billing_amount" billF) "billing_amount" = .ok b ∧
      getColE (setCol (dropDuplicates t) "billing_amount" billF) "tax_amount" = .ok tax ∧
      addSeries b tax = .ok tot ∧
      out = setCol (setCol (dropDuplicates t) "billing_amount" billF) "total_charges" tot := by
  simp only [data_transformation] at h
  cases h1 : getColE (dropDuplicates t) "billing_amount" with
  | error e => simp only [h1] at h; exact Except.noConfusion h
  | ok col =>
    simp only [h1] at h
    cases h2 : coerceBilling col with
    | error e => simp only [h2] at h; exact Except.noConfusion h
    | ok billF =>
      simp only [h2] at h
      cases h3 : getColE (setCol (dropDuplicates t) "billing_amount" billF)
          "billing_amount" with
      | error e => simp only [h3] at h; exact Except.noConfusion h
      | ok b =>
        simp only [h3] at h
        cases h4 : getColE (setCol (dropDuplicates t) "billing_amount" billF)
            "tax_amount" with
        | error e => simp only [h4] at h; exact Except.noConfusion h
        | ok tax =>
          simp only [h4] at h
          cases h5 : addSeries b tax with
          | error e => simp only [h5] at h; exact Except.noConfusion h
          | ok tot =>
            simp only [h5, Except.ok.injEq] at h
            exact ⟨col, billF, b, tax, tot, rfl, h2, h3, h4, h5, h.symm⟩

/-- C1: for every row of the table returned by `data_transformation`, the
`total_charges` value is the elementwise sum of that row's (coerced)
`billing_amount` value and its `tax_amount` value: the output has all three
columns, the `total_charges` column is as long as the output's row list,
and it equals the pandas Series sum of the output's `billing_amount` and
`tax_amount` columns. -/
theorem data_transformation_total_charges (t out : Table) (hwf : t.WF)
    (h : data_transformation t = .ok out) :
    (getCol? out "billing_amount").isSome = true ∧
    (getCol? out "tax_amount").isSome = true ∧
    (getCol? out "total_charges").isSome = true ∧
    ((getCol? out "total_charges").getD []).length = out.rows.length ∧
    addSeries ((getCol? out "billing_amount").getD [])
        ((getCol? out "tax_amount").getD [])
      = .ok ((getCol? out "total_charges").getD []) := by
  rcases data_transformation_run_shape h with
    ⟨col, billF, b, tax, tot, h1, h2, h3, h4, h5, rfl⟩
  have hwf1 : (dropDuplicates t).WF := WF_dropDuplicates hwf
  have hcol := getColE_eq_ok_iff.mp h1
  have hcollen : col.length = (dropDuplicates t).rows.length := getCol?_length hcol
  have hbflen : billF.length = (dropDuplicates t).rows.length := by
    rw [coerceBilling_length h2, hcollen]
  have hwf2 : (setCol (dropDuplicates t) "billing_amount" billF).WF := WF_setCol hwf1
  have hrows2 : (setCol (dropDuplicates t) "billing_amount" billF).rows.length
      = (dropDuplicates t).rows.length := rows_setCol_length hbflen
  have hb := getColE_eq_ok_iff.mp h3
  have htax := getColE_eq_ok_iff.mp h4
  have hblen := getCol?_length hb
  have htaxlen := getCol?_length htax
  have htotlen : tot.length
      = (setCol (dropDuplicates t) "billing_amount" billF).rows.length := by
    rw [addSeries_length b tax tot h5, hblen, htaxlen]
    simp
  have hgtot : getCol? (setCol (setCol (dropDuplicates t) "billing_amount" billF)
      "total_charges" tot) "total_charges" = some tot :=
    getCol?_setCol_self hwf2 htotlen
  have hgb : getCol? (setCol (setCol (dropDuplicates t) "billing_amount" billF)
      "total_charges" tot) "billing_amount" = some b := by
    rw [getCol?_setCol_ne hwf2 htotlen (by decide)]
    exact hb
  have hgtax : getCol? (setCol (setCol (dropDuplicates t) "billing_amount" billF)
      "total_charges" tot) "tax_amount" = some tax := by
    rw [getCol?_setCol_ne hwf2 htotlen (by decide)]
    exact htax
  have hrowsout : (setCol (setCol (dropDuplicates t) "billing_amount" billF)
      "total_charges" tot).rows.length
      = (setCol (dropDuplicates t) "billing_amount" billF).rows.length :=
    rows_setCol_length htotlen
  refine ⟨by rw [hgb]; rfl, by rw [hgtax]; rfl, by rw [hgtot]; rfl, ?_, ?_⟩
  · rw [hgtot, hrowsout]
    simpa using htotlen
  · rw [hgb, hgtax, hgtot]
    simpa using h5

/-- C1 witness: the theorem instantiated at the sample billing table of the
repository's tests (one row, `billing_amount = "$100"`, `tax_amount = 10`). -/
theorem data_transformation_total_charges_witness :
    (getCol? ⟨["customer_id", "billing_amount", "tax_amount", "total_charges"],
        [[Val.VInt 1, Val.VFloat 100, Val.VInt 10, Val.VFloat 110]]⟩
      "billing_amount").isSome = true ∧
    (getCol? ⟨["customer_id", "billing_amount", "tax_amount", "total_charges"],
        [[Val.VInt 1, Val.VFloat 100, Val.VInt 10, Val.VFloat 110]]⟩
      "tax_amount").isSome = true ∧
    (getCol? ⟨["customer_id", "billing_amount", "tax_amount", "total_charges"],
        [[Val.VInt 1, Val.VFloat 100, Val.VInt 10, Val.VFloat 110]]⟩
      "total_charges").isSome = true ∧
    ((getCol? ⟨["customer_id", "billing_amount", "tax_amount", "total_charges"],
        [[Val.VInt 1, Val.VFloat 100, Val.VInt 10, Val.VFloat 110]]⟩
      "total_charges").getD []).length
      = (⟨["customer_id", "billing_amount", "tax_amount", "total_charges"],
        [[Val.VInt 1, Val.VFloat 100, Val.VInt 10, Val.VFloat 110]]⟩ : Table).rows.length ∧
    addSeries ((getCol? ⟨["customer_id", "billing_amount", "tax_amount", "total_charges"],
        [[Val.VInt 1, Val.VFloat 100, Val.VInt 10, Val.VFloat 110]]⟩
      "billing_amount").getD [])
        ((getCol? ⟨["customer_id", "billing_amount", "tax_amount", "total_charges"],
        [[Val.VInt 1, Val.VFloat 100, Val.VInt 10, Val.VFloat 110]]⟩
      "tax_amount").getD [])
      = .ok ((getCol? ⟨["customer_id", "billing_amount", "tax_amount", "total_charges"],
        [[Val.VInt 1, Val.VFloat 100, Val.VInt 10, Val.VFloat 110]]⟩
      "total_charges").getD []) :=
  data_transformation_total_charges
    ⟨["customer_id", "billing_amount", "tax_amount"],
      [[Val.VInt 1, Val.VStr "$100", Val.VInt 10]]⟩
    ⟨["customer_id", "billing_amount", "tax_amount", "total_charges"],
      [[Val.VInt 1, Val.VFloat 100, Val.VInt 10, Val.VFloat 110]]⟩
    (by decide)
    (by
      simp +decide [data_transformation, dropDuplicates, dedupAux, getColE, getCol?,
        colIdx?, setCol, coerceBilling, strReplaceDollar, numericDtype, strReplaceDollarVal,
        removeDollar, astypeFloat, astypeFloatVal, parseFloat?, parseUnsigned?, natOfDigits,
        digitVal, isNumVal, addSeries, addVal]
      norm_num)

/-- C3: on the empty DataFrame (`pd.DataFrame()`: zero rows, no columns)
`data_transformation` does not return the table unchanged: the column read
`data['billing_amount']` raises `KeyError` because the column is absent,
contradicting the repository's own test case 2 for the Transformer. -/
theorem data_transformation_empty_table :
    data_transformation ⟨[], []⟩ = .error (.keyError "billing_amount") := rfl

/-- C6: `pd.read_csv` applied to a zero-byte file raises
`EmptyDataError` (no columns to parse), not an empty DataFrame,
contradicting the repository's own extraction test case 2. -/
theorem data_extraction_empty_file :
    data_extraction "" = .error .emptyDataError := rfl

/-- C2 counterexample: a non-empty table lacking `tax_amount` whose
`billing_amount` value "abc" is not numeric fails with `ValueError`
(value conversion, raised at line 39) and not with `KeyError`
(missing column): the claim that every non-empty table missing a required
column fails with the missing-column error kind is false. -/
theorem data_transformation_missing_column_cx :
    data_transformation ⟨["billing_amount"], [[Val.VStr "abc"]]⟩
        = .error (.valueError "abc")
    ∧ data_transformation ⟨["billing_amount"], [[Val.VStr "abc"]]⟩
        ≠ .error (.keyError "billing_amount")
    ∧ data_transformation ⟨["billing_amount"], [[Val.VStr "abc"]]⟩
        ≠ .error (.keyError "tax_amount") := by
  refine ⟨rfl, ?_, ?_⟩ <;> decide

/-- C2 (amended): a table lacking `billing_amount` fails with
`KeyError("billing_amount")`; a table lacking `tax_amount` fails with
`KeyError("tax_amount")` provided the `billing_amount` coercion of line 39
succeeds first — if that coercion itself fails, its value-conversion or
attribute error preempts the missing-column error.  In either case no
table is returned. -/
theorem data_transformation_missing_column (t : Table) :
    ("billing_amount" ∉ t.cols →
      data_transformation t = .error (.keyError "billing_amount"))
    ∧ (∀ col billF, "tax_amount" ∉ t.cols →
      getColE (dropDuplicates t) "billing_amount" = .ok col →
      coerceBilling col = .ok billF →
      data_transformation t = .error (.keyError "tax_amount")) := by
  constructor
  · intro hnb
    have h1 : getColE (dropDuplicates t) "billing_amount"
        = .error (.keyError "billing_amount") :=
      getColE_eq_error_of_not_mem (t := dropDuplicates t) hnb
    simp [data_transformation, h1]
  · intro col billF hnt h1 h2
    have hmem : "billing_amount" ∈ (dropDuplicates t).cols :=
      getCol?_mem_of_some (getColE_eq_ok_iff.mp h1)
    have hcols2 : (setCol (dropDuplicates t) "billing_amount" billF).cols
        = (dropDuplicates t).cols := cols_setCol_of_mem hmem
    cases h3 : getColE (setCol (dropDuplicates t) "billing_amount" billF)
        "billing_amount" with
    | error e =>
      have := getCol?_eq_none_iff.mp (by
        cases hg : getCol? (setCol (dropDuplicates t) "billing_amount" billF)
            "billing_amount" with
        | some vs => rw [getColE_eq_ok_iff.mpr hg] at h3; exact absurd h3 (by simp)
        | none => rfl)
      rw [hcols2] at this
      exact absurd hmem this
    | ok b =>
      have h4 : getColE (setCol (dropDuplicates t) "billing_amount" billF)
          "tax_amount" = .error (.keyError "tax_amount") := by
        apply getColE_eq_error_of_not_mem
        rw [hcols2]
        exact hnt
      simp [data_transformation, h1, h2, h3, h4]

/-- C2 witness: a non-empty one-column table `billing_amount = "$5"` (so
the coercion succeeds) lacking `tax_amount` fails with
`KeyError("tax_amount")`. -/
theorem data_transformation_missing_column_witness :
    data_transformation ⟨["billing_amount"], [[Val.VStr "$5"]]⟩
      = .error (.keyError "tax_amount") :=
  (data_transformation_missing_column ⟨["billing_amount"], [[Val.VStr "$5"]]⟩).2
    [Val.VStr "$5"] [Val.VFloat 5] (by decide) rfl rfl

/-- C4 counterexample: two rows that differ as strings ("$100" and "100")
but coerce to the same float survive `drop_duplicates` (which runs before
the coercion) and come out as two identical rows, so the output of
`data_transformation` can contain duplicate rows. -/
theorem data_transformation_dup_rows_cx :
    data_transformation ⟨["billing_amount", "tax_amount"],
        [[Val.VStr "$100", Val.VInt 1], [Val.VStr "100", Val.VInt 1]]⟩
      = .ok ⟨["billing_amount", "tax_amount", "total_charges"],
        [[Val.VFloat 100, Val.VInt 1, Val.VFloat 101],
         [Val.VFloat 100, Val.VInt 1, Val.VFloat 101]]⟩
    ∧ ¬ ([[Val.VFloat 100, Val.VInt 1, Val.VFloat 101],
          [Val.VFloat 100, Val.VInt 1, Val.VFloat 101]] : List (List Val)).Nodup := by
  constructor
  · simp +decide [data_transformation, dropDuplicates, dedupAux, getColE, getCol?,
      colIdx?, setCol, coerceBilling, strReplaceDollar, numericDtype, strReplaceDollarVal,
      removeDollar, astypeFloat, astypeFloatVal, parseFloat?, parseUnsigned?, natOfDigits,
      digitVal, isNumVal, addSeries, addVal]
    norm_num
  · decide

/-- C4 (amended): duplicate removal happens on the pre-transformation
rows: the deduplicated table `data_transformation` starts from has
pairwise-distinct rows forming a subsequence of the input's rows (first
occurrences kept); rows that become equal only after the currency coercion
can both survive into the output. -/
theorem dropDuplicates_nodup (t : Table) :
    ((dropDuplicates t).rows).Nodup ∧ List.Sublist (dropDuplicates t).rows t.rows :=
  ⟨nodup_dedupAux [] t.rows, sublist_dedupAux [] t.rows⟩

theorem numericDtype_strings (vs : List String) :
    numericDtype (vs.map Val.VStr) = false := by
  cases vs with
  | nil => rfl
  | cons s ss => simp [numericDtype, isNumVal]

theorem astypeFloat_strings (vs : List String) :
    ((∀ s ∈ vs, (parseFloat? s).isSome = true) →
      astypeFloat (vs.map Val.VStr)
        = .ok (vs.map fun s => Val.VFloat ((parseFloat? s).getD 0)))
    ∧ ((∃ s ∈ vs, parseFloat? s = none) →
      ∃ w, parseFloat? w = none ∧
        astypeFloat (vs.map Val.VStr) = .error (.valueError w)) := by
  induction vs with
  | nil =>
    constructor
    · intro _; rfl
    · simp
  | cons s ss ih =>
    constructor
    · intro hall
      have hs := hall s (List.mem_cons_self s ss)
      cases hps : parseFloat? s with
      | none => rw [hps] at hs; simp at hs
      | some q =>
        simp only [List.map_cons, astypeFloat, astypeFloatVal, hps]
        rw [ih.1 fun x hx => hall x (List.mem_cons_of_mem s hx)]
        simp [hps]
    · intro hex
      cases hps : parseFloat? s with
      | none =>
        exact ⟨s, hps, by simp [astypeFloat, astypeFloatVal, hps]⟩
      | some q =>
        have hex2 : ∃ x ∈ ss, parseFloat? x = none := by
          rcases hex with ⟨w0, hw0mem, hw0⟩
          rcases List.mem_cons.mp hw0mem with rfl | hmem
          · rw [hps] at hw0; exact Option.noConfusion hw0
          · exact ⟨w0, hmem, hw0⟩
        rcases ih.2 hex2 with ⟨w, hw, hrec⟩
        exact ⟨w, hw, by simp [astypeFloat, astypeFloatVal, hps, hrec]⟩

/-- C5 counterexample: the value "1$00" has no leading currency symbol and
is not numeric as written (`parseFloat?` rejects it), so under the claim it
should fail with a value-conversion error — but the code removes the inner
`'$'` as well and succeeds, producing 100.0. -/
theorem data_transformation_strip_cx :
    parseFloat? "1$00" = none
    ∧ data_transformation ⟨["billing_amount", "tax_amount"],
        [[Val.VStr "1$00", Val.VFloat 0]]⟩
      = .ok ⟨["billing_amount", "tax_amount", "total_charges"],
          [[Val.VFloat 100, Val.VFloat 0, Val.VFloat 100]]⟩ := by
  constructor
  · rfl
  · simp +decide [data_transformation, dropDuplicates, dedupAux, getColE, getCol?,
      colIdx?, setCol, coerceBilling, strReplaceDollar, numericDtype, strReplaceDollarVal,
      removeDollar, astypeFloat, astypeFloatVal, parseFloat?, parseUnsigned?, natOfDigits,
      digitVal, isNumVal, addSeries, addVal]

/-- C5 (amended): on a string-valued `billing_amount` column the code
removes every `'$'` character and coerces each value with `float`: when
every value parses after the removal the coercion succeeds with exactly
those parsed floats, and when some value does not parse the coercion — and
with it `data_transformation` — fails with a value-conversion error
carrying a non-numeric string. -/
theorem coerceBilling_spec (vs : List String) :
    ((∀ s ∈ vs, (parseFloat? (removeDollar s)).isSome = true) →
      coerceBilling (vs.map Val.VStr)
        = .ok (vs.map fun s => Val.VFloat ((parseFloat? (removeDollar s)).getD 0)))
    ∧ ((∃ s ∈ vs, parseFloat? (removeDollar s) = none) →
      ∃ w, parseFloat? w = none ∧
        coerceBilling (vs.map Val.VStr) = .error (.valueError w))
    ∧ (∀ t : Table,
      getCol? (dropDuplicates t) "billing_amount" = some (vs.map Val.VStr) →
      (∃ s ∈ vs, parseFloat? (removeDollar s) = none) →
      ∃ w, parseFloat? w = none ∧
        data_transformation t = .error (.valueError w)) := by
  have hmm : (vs.map Val.VStr).map strReplaceDollarVal
      = (vs.map removeDollar).map Val.VStr := by
    simp [List.map_map, strReplaceDollarVal, Function.comp]
  have hcb : coerceBilling (vs.map Val.VStr)
      = astypeFloat ((vs.map removeDollar).map Val.VStr) := by
    simp only [coerceBilling, strReplaceDollar, numericDtype_strings,
      Bool.false_eq_true, if_false, hmm]
  have hok := (astypeFloat_strings (vs.map removeDollar)).1
  have herr := (astypeFloat_strings (vs.map removeDollar)).2
  refine ⟨?_, ?_, ?_⟩
  · intro hall
    rw [hcb, hok (by
      intro x hx
      rcases List.mem_map.mp hx with ⟨s, hs, rfl⟩
      exact hall s hs)]
    simp [List.map_map, Function.comp]
  · intro hex
    rw [hcb]
    apply herr
    rcases hex with ⟨s, hs, hnone⟩
    exact ⟨removeDollar s, List.mem_map.mpr ⟨s, hs, rfl⟩, hnone⟩
  · intro t hgc hex
    have h1 : getColE (dropDuplicates t) "billing_amount" = .ok (vs.map Val.VStr) :=
      getColE_eq_ok_iff.mpr hgc
    rcases herr (by
      rcases hex with ⟨s, hs, hnone⟩
      exact ⟨removeDollar s, List.mem_map.mpr ⟨s, hs, rfl⟩, hnone⟩) with ⟨w, hw, hfail⟩
    refine ⟨w, hw, ?_⟩
    have h2 : coerceBilling (vs.map Val.VStr) = .error (.valueError w) := by
      rw [hcb]; exact hfail
    simp [data_transformation, h1, h2]

/-- C5 witness: the theorem instantiated at the one-value column "$100"
(success side) and at the column "x" inside a concrete table
(failure side). -/
theorem coerceBilling_spec_witness :
    coerceBilling [Val.VStr "$100"] = .ok [Val.VFloat 100]
    ∧ ∃ w, parseFloat? w = none ∧
        data_transformation ⟨["billing_amount"], [[Val.VStr "x"]]⟩
          = .error (.valueError w) := by
  constructor
  · have h := (coerceBilling_spec ["$100"]).1 (by decide)
    simp only [List.map_cons, List.map_nil] at h
    rw [h]
    simp +decide [removeDollar, parseFloat?, parseUnsigned?, natOfDigits, digitVal]
  · exact (coerceBilling_spec ["x"]).2.2 ⟨["billing_amount"], [[Val.VStr "x"]]⟩
      rfl ⟨"x", List.mem_singleton.mpr rfl, rfl⟩

/-- C8: the code removes every `'$'` character occurring anywhere in a
`billing_amount` value, not only a single leading currency symbol: the
result of the removal never contains `'$'`, and the value "1$0$0" is
coerced to 100.0 (with `total_charges` following suit) instead of causing
a value-conversion failure. -/
theorem data_transformation_removes_all_dollars :
    removeDollar "1$0$0" = "100"
    ∧ (∀ s : String, ('$' ∈ (removeDollar s).data) = False)
    ∧ data_transformation ⟨["billing_amount", "tax_amount"],
        [[Val.VStr "1$0$0", Val.VInt 0]]⟩
      = .ok ⟨["billing_amount", "tax_amount", "total_charges"],
          [[Val.VFloat 100, Val.VInt 0, Val.VFloat 100]]⟩ := by
  refine ⟨rfl, ?_, ?_⟩
  · intro s
    simp [removeDollar]
  · simp +decide [data_transformation, dropDuplicates, dedupAux, getColE, getCol?,
      colIdx?, setCol, coerceBilling, strReplaceDollar, numericDtype, strReplaceDollarVal,
      removeDollar, astypeFloat, astypeFloatVal, parseFloat?, parseUnsigned?, natOfDigits,
      digitVal, isNumVal, addSeries, addVal]

/-- C7: `to_csv(index=False)` on an empty table (zero rows) succeeds and
writes only the header line (the comma-joined column names followed by the
line terminator); when the table also has no columns the header is the
empty string, so the file holds no data rows at all. -/
theorem data_loading_empty (t : Table) (h : t.rows = []) :
    data_loading t = String.intercalate "," t.cols ++ "\n" := by
  unfold data_loading
  rw [h]
  simp [String.join]

/-- C7 witness: loading the empty two-column table writes "a,b\n"; loading
the fully empty table writes just the line terminator. -/
theorem data_loading_empty_witness :
    data_loading ⟨["a", "b"], []⟩ = "a,b\n"
    ∧ data_loading ⟨[], []⟩ = "\n" := by
  constructor
  · rw [data_loading_empty ⟨["a", "b"], []⟩ rfl]; rfl
  · rw [data_loading_empty ⟨[], []⟩ rfl]; rfl

/-- C9: `data_transformation` leaves its argument unchanged: in the heap
model, `drop_duplicates` allocates a fresh DataFrame and both column
assignments mutate only that fresh cell, so after a successful call the
caller's table at `r` is exactly what it was, and the returned handle is
the fresh cell, not `r`. -/
theorem dtHeap_frame (h : List Table) (r : ℕ) (p : List Table × ℕ)
    (hr : r < h.length) (hrun : dtHeap h r = .ok p) :
    p.1[r]? = h[r]? ∧ p.2 = h.length := by
  simp only [dtHeap] at hrun
  cases h1 : getColE (dropDuplicates (h.getD r ⟨[], []⟩)) "billing_amount" with
  | error e => simp only [h1] at hrun; exact Except.noConfusion hrun
  | ok col =>
    simp only [h1] at hrun
    cases h2 : coerceBilling col with
    | error e => simp only [h2] at hrun; exact Except.noConfusion hrun
    | ok billF =>
      simp only [h2] at hrun
      cases h3 : getColE (setCol (dropDuplicates (h.getD r ⟨[], []⟩))
          "billing_amount" billF) "billing_amount" with
      | error e => simp only [h3] at hrun; exact Except.noConfusion hrun
      | ok b =>
        simp only [h3] at hrun
        cases h4 : getColE (setCol (dropDuplicates (h.getD r ⟨[], []⟩))
            "billing_amount" billF) "tax_amount" with
        | error e => simp only [h4] at hrun; exact Except.noConfusion hrun
        | ok tax =>
          simp only [h4] at hrun
          cases h5 : addSeries b tax with
          | error e => simp only [h5] at hrun; exact Except.noConfusion hrun
          | ok tot =>
            simp only [h5, Except.ok.injEq] at hrun
            subst hrun
            have hne : h.length ≠ r := by omega
            constructor
            · show ((((h ++ [_]).set h.length _).set h.length _) : List Table)[r]? = h[r]?
              rw [List.getElem?_set_ne hne, List.getElem?_set_ne hne,
                List.getElem?_append, if_pos hr]
            · rfl

/-- C9 witness: the theorem instantiated at a one-table heap holding the
sample billing table; after the call the heap still holds the original
table at index 0 and the result lives in the fresh cell 1. -/
theorem dtHeap_frame_witness :
    (([⟨["billing_amount", "tax_amount"], [[Val.VStr "$100", Val.VInt 10]]⟩,
       ⟨["billing_amount", "tax_amount", "total_charges"],
         [[Val.VFloat 100, Val.VInt 10, Val.VFloat 110]]⟩],
      1) : List Table × ℕ).1[0]?
      = [(⟨["billing_amount", "tax_amount"],
          [[Val.VStr "$100", Val.VInt 10]]⟩ : Table)][0]?
    ∧ (([⟨["billing_amount", "tax_amount"], [[Val.VStr "$100", Val.VInt 10]]⟩,
       ⟨["billing_amount", "tax_amount", "total_charges"],
         [[Val.VFloat 100, Val.VInt 10, Val.VFloat 110]]⟩],
      1) : List Table × ℕ).2
      = [(⟨["billing_amount", "tax_amount"],
          [[Val.VStr "$100", Val.VInt 10]]⟩ : Table)].length :=
  dtHeap_frame
    [⟨["billing_amount", "tax_amount"], [[Val.VStr "$100", Val.VInt 10]]⟩] 0
    ([⟨["billing_amount", "tax_amount"], [[Val.VStr "$100", Val.VInt 10]]⟩,
      ⟨["billing_amount", "tax_amount", "total_charges"],
        [[Val.VFloat 100, Val.VInt 10, Val.VFloat 110]]⟩], 1)
    (by decide)
    (by
      simp +decide [dtHeap, data_transformation, dropDuplicates, dedupAux, getColE,
        getCol?, colIdx?, setCol, coerceBilling, strReplaceDollar, numericDtype,
        strReplaceDollarVal, removeDollar, astypeFloat, astypeFloatVal, parseFloat?,
        parseUnsigned?, natOfDigits, digitVal, isNumVal, addSeries, addVal]
      norm_num)

/-- C10: on a table whose `billing_amount` column is non-empty and entirely
numeric — such as `data_transformation`'s own output — the `.str` accessor
of line 39 raises `AttributeError`, so the transformation errors instead of
returning a table and is not applicable to its own result. -/
theorem data_transformation_numeric_billing (t : Table) (col : List Val)
    (hg : getColE (dropDuplicates t) "billing_amount" = .ok col)
    (hne : col ≠ []) (hnum : ∀ v ∈ col, isNumVal v = true) :
    data_transformation t = .error .attributeError := by
  have hdt : numericDtype col = true := by
    unfold numericDtype
    rw [Bool.and_eq_true]
    constructor
    · cases col with
      | nil => exact absurd rfl hne
      | cons v vs => rfl
    · rw [List.all_eq_true]; exact hnum
  have hcb : coerceBilling col = .error .attributeError := by
    simp [coerceBilling, strReplaceDollar, hdt]
  simp [data_transformation, hg, hcb]

/-- C10 witness: applying the transformation to its own output on the
sample table (float `billing_amount`) raises `AttributeError`. -/
theorem data_transformation_numeric_billing_witness :
    data_transformation ⟨["billing_amount", "tax_amount", "total_charges"],
        [[Val.VFloat 100, Val.VInt 10, Val.VFloat 110]]⟩
      = .error .attributeError :=
  data_transformation_numeric_billing
    ⟨["billing_amount", "tax_amount", "total_charges"],
      [[Val.VFloat 100, Val.VInt 10, Val.VFloat 110]]⟩
    [Val.VFloat 100] rfl (by decide) (by decide)
